import Mathlib

/-!
Verification development for the weframe collaborative video-editing core.

The definitions below are a shallow embedding of the Rust sources:
  * `weframe-shared/src/lib.rs` — the document model (`VideoProject`,
    `EditOperation`, `OTOperation`), the reducer `apply_operation`, the OT
    engine `transform_operation`, and the extractor `as_trim_clip`;
  * `weframe-server/src/lib.rs` — the session's `send_pong`.

Modelling conventions:
  * Rust `std::time::Duration` (u64 seconds + u32 nanoseconds, nanoseconds
    below 10^9) is modelled as a natural number of nanoseconds; a valid value
    is at most `DMAX`.  Rust's `Duration` addition and subtraction abort the
    program on overflow/underflow, so the embedded arithmetic returns
    `Option`/`Except`, `none`/`.error` standing for the abort.
  * `usize` counters (`track`, `client_version`, `server_version`) are `Nat`.
  * `serde_json::Value` is never inspected by any modelled operation; it is
    embedded as an abstract payload `JsonValue` compared only by equality.
  * Rust `String` comparison (`<` on `client_id`) is byte-wise on UTF-8,
    which orders exactly like Lean's code-point lexicographic `String.lt`.
-/

namespace Weframe

/-- Largest value of a Rust `u64`. -/
def U64MAX : Nat := 2 ^ 64 - 1

/-- Largest `std::time::Duration`, in nanoseconds:
`u64::MAX` seconds plus `999_999_999` nanoseconds. -/
def DMAX : Nat := U64MAX * 1000000000 + 999999999

/-- Rust `Duration + Duration`: panics (here `none`) when the sum leaves the
representable range. -/
def durAdd (a b : Nat) : Option Nat :=
  if a + b ≤ DMAX then some (a + b) else none

/-- Rust `Duration - Duration`: panics (here `none`) on underflow. -/
def durSub (a b : Nat) : Option Nat :=
  if b ≤ a then some (a - b) else none

/-- Abstract stand-in for `serde_json::Value`; no modelled operation inspects
its contents. -/
structure JsonValue where
  raw : String
deriving DecidableEq

inductive EffectType where
  | Brightness
  | Contrast
  | Saturation
  | Hue
  | Grayscale
deriving DecidableEq

structure Effect where
  id : String
  effect_type : EffectType
  start_time : Nat
  end_time : Nat
  parameters : JsonValue
deriving DecidableEq

inductive TransitionType where
  | Fade
  | Wipe
  | Dissolve
deriving DecidableEq

structure Transition where
  id : String
  transition_type : TransitionType
  duration : Nat
deriving DecidableEq

structure VideoClip where
  id : String
  source_file : String
  start_time : Nat
  end_time : Nat
  track : Nat
  effects : List Effect
  transition : Option Transition
deriving DecidableEq

structure CursorPosition where
  track : Nat
  time : Nat
deriving DecidableEq

structure Collaborator where
  id : String
  name : String
  cursor_position : CursorPosition
deriving DecidableEq

structure VideoProject where
  clips : List VideoClip
  duration : Nat
  collaborators : List Collaborator
deriving DecidableEq

inductive EditOperation where
  | AddClip (clip : VideoClip)
  | RemoveClip (id : String)
  | MoveClip (id : String) (new_start_time : Nat) (new_track : Nat)
  | TrimClip (id : String) (new_start_time : Nat) (new_end_time : Nat)
  | AddEffect (clip_id : String) (effect : Effect)
  | RemoveEffect (clip_id : String) (effect_id : String)
  | AddTransition (clip_id : String) (transition : Transition)
  | RemoveTransition (clip_id : String)
  | SetProjectDuration (d : Nat)
  | UpdateCollaboratorCursor (collaborator_id : String) (new_position : CursorPosition)
deriving DecidableEq

structure OTOperation where
  client_id : String
  client_version : Nat
  server_version : Nat
  operation : EditOperation
deriving DecidableEq

/-- `self.xs.iter_mut().find(|x| p x)` followed by an in-place mutation `f`:
rewrite the first element satisfying `p`, leave the list unchanged when none
does. -/
def updateFirst (p : α → Bool) (f : α → α) : List α → List α
  | [] => []
  | x :: xs => if p x then f x :: xs else x :: updateFirst p f xs

/-- As `updateFirst`, but the mutation itself may panic (`none`). -/
def updateFirstM (p : α → Bool) (f : α → Option α) : List α → Option (List α)
  | [] => some []
  | x :: xs => if p x then (f x).map (· :: xs) else (updateFirstM p f xs).map (x :: ·)

/-- The in-place mutation of the found clip in the `MoveClip` branch:
`let duration = clip.end_time - clip.start_time; clip.start_time = ns;
clip.end_time = ns + duration; clip.track = nt`.  Both `Duration` operations
can panic. -/
def moveClipUpdate (ns : Nat) (nt : Nat) (c : VideoClip) : Option VideoClip := do
  let d ← durSub c.end_time c.start_time
  let e ← durAdd ns d
  some { c with start_time := ns, end_time := e, track := nt }

/-- `VideoProject::apply_operation` from `weframe-shared/src/lib.rs`
(lines 113–178), branch for branch.  `none` models a Rust panic, which can
arise only from the `Duration` arithmetic in the `MoveClip` branch. -/
def applyOperation (p : VideoProject) (op : EditOperation) : Option VideoProject :=
  match op with
  | .AddClip clip => some { p with clips := p.clips ++ [clip] }
  | .RemoveClip id => some { p with clips := p.clips.filter (fun c => c.id != id) }
  | .MoveClip id ns nt =>
      (updateFirstM (fun c => c.id == id) (moveClipUpdate ns nt)
        p.clips).map (fun cl => { p with clips := cl })
  | .TrimClip id ns ne =>
      some { p with clips :=
              (updateFirst (fun c => c.id == id)
                (fun c => { c with start_time := ns, end_time := ne }) p.clips) }
  | .AddEffect cid e =>
      some { p with clips :=
              (updateFirst (fun c => c.id == cid)
                (fun c => { c with effects := c.effects ++ [e] }) p.clips) }
  | .RemoveEffect cid eid =>
      some { p with clips :=
              (updateFirst (fun c => c.id == cid)
                (fun c => { c with effects := c.effects.filter (fun e => e.id != eid) }) p.clips) }
  | .AddTransition cid t =>
      some { p with clips :=
              (updateFirst (fun c => c.id == cid)
                (fun c => { c with transition := some t }) p.clips) }
  | .RemoveTransition cid =>
      some { p with clips :=
              (updateFirst (fun c => c.id == cid)
                (fun c => { c with transition := none }) p.clips) }
  | .SetProjectDuration d => some { p with duration := d }
  | .UpdateCollaboratorCursor colid pos =>
      some { p with collaborators :=
              (updateFirst (fun c => c.id == colid)
                (fun c => { c with cursor_position := pos }) p.collaborators) }

/-- The two ways `VideoProject::transform_operation` can abort: a `Duration`
arithmetic overflow/underflow in the `(AddClip, AddClip)` branch, or the
explicit assertion in `EditOperation::as_trim_clip`. -/
inductive TransformFault where
  | durationOverflow
  | trimExtractorMisuse
deriving DecidableEq

deriving instance DecidableEq for Except

/-- Rust `Duration` addition inside the transform engine. -/
def durAddE (a b : Nat) : Except TransformFault Nat :=
  if a + b ≤ DMAX then .ok (a + b) else .error .durationOverflow

/-- Rust `Duration` subtraction inside the transform engine. -/
def durSubE (a b : Nat) : Except TransformFault Nat :=
  if b ≤ a then .ok (a - b) else .error .durationOverflow

/-- `EditOperation::as_trim_clip` (`weframe-shared/src/lib.rs` lines 253–263):
`none` models the `"Called as_trim_clip on non-TrimClip operation"` abort. -/
def asTrimClip : EditOperation → Option (String × Nat × Nat)
  | .TrimClip id ns ne => some (id, ns, ne)
  | _ => none

/-- `VideoProject::transform_operation` (`weframe-shared/src/lib.rs` lines
180–250).  The `&self` receiver is never read by the Rust body, so it is not a
parameter here.  In the `(AddClip, AddClip)` branch the Rust expression
`client_clip.start_time + server_clip.end_time - server_clip.start_time`
associates as `(client.start + server.end) - server.start` and both steps can
abort. -/
def transformOperation (server_op client_op : OTOperation) :
    Except TransformFault OTOperation :=
  match server_op.operation, client_op.operation with
  | .AddClip server_clip, .AddClip client_clip =>
      if server_op.client_id < client_op.client_id then do
        let t1 ← durAddE client_clip.start_time server_clip.end_time
        let t2 ← durSubE t1 server_clip.start_time
        .ok { client_id := client_op.client_id,
              client_version := client_op.client_version,
              server_version := server_op.server_version + 1,
              operation := .AddClip { client_clip with start_time := t2 } }
      else
        .ok client_op
  | .RemoveClip server_id, .RemoveClip client_id =>
      if server_id == client_id then
        .ok { client_id := client_op.client_id,
              client_version := client_op.client_version,
              server_version := server_op.server_version,
              operation := .RemoveClip client_id }
      else
        .ok client_op
  | .MoveClip server_id _ _, .MoveClip client_id _ _ =>
      if server_id == client_id then .ok server_op else .ok client_op
  | .TrimClip server_id _ _, .TrimClip client_id _ _ =>
      if server_id == client_id then
        match asTrimClip server_op.operation, asTrimClip client_op.operation with
        | some (_, server_start, server_end), some (_, client_start, client_end) =>
            .ok { client_id := client_op.client_id,
                  client_version := client_op.client_version,
                  server_version := server_op.server_version,
                  operation :=
                    .TrimClip client_id (max server_start client_start)
                      (min server_end client_end) }
        | _, _ => .error .trimExtractorMisuse
      else
        .ok client_op
  | .SetProjectDuration _, .SetProjectDuration _ => .ok server_op
  | _, _ => .ok client_op

/-- `ServerMessage` from `weframe-server/src/lib.rs` (lines 35–45). -/
inductive ServerMessage where
  | ClientOperation (op : OTOperation)
  | NewClient (client_id : String) (name : String)
  | ClientDisconnected (client_id : String)
  | ProjectUpdate (project : VideoProject)
  | ChatMessage (client_id : String) (message : String)
  | Error (client_id : String) (message : String)
  | Ping (t : Nat)
  | Pong (t : Nat)
deriving DecidableEq

/-- Rust `u64` subtraction `now - received_time`: `none` models the overflow
abort when the subtrahend exceeds the minuend. -/
def u64Sub (a b : Nat) : Option Nat :=
  if b ≤ a then some (a - b) else none

/-- `VideoSession::send_pong` (`weframe-server/src/lib.rs` lines 138–145).
The wall clock read `SystemTime::now() … as_millis() as u64` is an input of
the environment, passed here as the parameter `now`; `received_time` arrives
from the client in a `Ping` frame (line 196–198). -/
def sendPong (now received_time : Nat) : Option ServerMessage :=
  (u64Sub now received_time).map ServerMessage.Pong

/-! ### Helper lemmas about the first-match mutation combinators -/

theorem updateFirst_of_forall_false {p : α → Bool} {f : α → α} {l : List α}
    (h : ∀ x ∈ l, p x = false) : updateFirst p f l = l := by
  induction l with
  | nil => rfl
  | cons x xs ih =>
      simp only [updateFirst, h x (List.mem_cons_self x xs)]
      simp only [ite_false, Bool.false_eq_true]
      exact congrArg (x :: ·) (ih fun y hy => h y (List.mem_cons_of_mem x hy))

theorem updateFirst_append {p : α → Bool} {f : α → α} {pre : List α} {c : α}
    {rest : List α} (hpre : ∀ x ∈ pre, p x = false) (hc : p c = true) :
    updateFirst p f (pre ++ c :: rest) = pre ++ f c :: rest := by
  induction pre with
  | nil => simp [updateFirst, hc]
  | cons x xs ih =>
      have hx := hpre x (List.mem_cons_self x xs)
      simp only [List.cons_append, updateFirst, hx, Bool.false_eq_true, ite_false]
      exact congrArg (x :: ·) (ih fun y hy => hpre y (List.mem_cons_of_mem x hy))

theorem updateFirstM_of_forall_false {p : α → Bool} {f : α → Option α}
    {l : List α} (h : ∀ x ∈ l, p x = false) : updateFirstM p f l = some l := by
  induction l with
  | nil => rfl
  | cons x xs ih =>
      have hx := h x (List.mem_cons_self x xs)
      have ihs := ih fun y hy => h y (List.mem_cons_of_mem x hy)
      simp [updateFirstM, hx, ihs]

theorem updateFirstM_append {p : α → Bool} {f : α → Option α} {pre : List α}
    {c : α} {rest : List α} (hpre : ∀ x ∈ pre, p x = false) (hc : p c = true) :
    updateFirstM p f (pre ++ c :: rest) = (f c).map (fun y => pre ++ y :: rest) := by
  induction pre with
  | nil => simp [updateFirstM, hc]
  | cons x xs ih =>
      have hx := hpre x (List.mem_cons_self x xs)
      have ihs := ih fun y hy => hpre y (List.mem_cons_of_mem x hy)
      cases hfc : f c <;> simp [updateFirstM, hx, ihs, hfc]

theorem updateFirstM_eq_none_iff {p : α → Bool} {f : α → Option α} {l : List α} :
    updateFirstM p f l = none ↔ ∃ x, l.find? p = some x ∧ f x = none := by
  induction l with
  | nil => simp [updateFirstM]
  | cons x xs ih =>
      by_cases hx : p x
      · simp [updateFirstM, hx, List.find?_cons_of_pos _ hx, Option.map_eq_none']
      · simp only [updateFirstM, hx, Bool.false_eq_true, ite_false,
          List.find?_cons_of_neg _ (by simpa using hx), Option.map_eq_none']
        exact ih

theorem moveClipUpdate_eq_some {ns : Nat} {nt : Nat} {c : VideoClip}
    (h1 : c.start_time ≤ c.end_time)
    (h2 : ns + (c.end_time - c.start_time) ≤ DMAX) :
    moveClipUpdate ns nt c =
      some { c with start_time := ns,
                    end_time := ns + (c.end_time - c.start_time),
                    track := nt } := by
  simp [moveClipUpdate, durSub, durAdd, h1, h2]

theorem moveClipUpdate_eq_none_iff {ns : Nat} {nt : Nat} {c : VideoClip} :
    moveClipUpdate ns nt c = none ↔
      c.end_time < c.start_time ∨ DMAX < ns + (c.end_time - c.start_time) := by
  by_cases h1 : c.start_time ≤ c.end_time
  · by_cases h2 : ns + (c.end_time - c.start_time) ≤ DMAX
    · rw [moveClipUpdate_eq_some h1 h2]
      simp only [reduceCtorEq, false_iff]
      omega
    · have hnone : moveClipUpdate ns nt c = none := by
        simp [moveClipUpdate, durSub, durAdd, h1, h2]
      rw [hnone]
      simp only [true_iff]
      omega
  · have hnone : moveClipUpdate ns nt c = none := by
      simp [moveClipUpdate, durSub, durAdd, h1]
    rw [hnone]
    simp only [true_iff]
    omega

/-! ### Concrete sample data used by witnesses and counterexamples -/

def exClip : VideoClip :=
  { id := "c1", source_file := "intro.mp4", start_time := 0, end_time := 10,
    track := 0, effects := [], transition := none }

def exProject : VideoProject :=
  { clips := [exClip], duration := 60, collaborators := [] }

def exEffect1 : Effect :=
  { id := "e1", effect_type := .Brightness, start_time := 0, end_time := 10,
    parameters := { raw := "0.5" } }

def exEffect2 : Effect :=
  { id := "e2", effect_type := .Brightness, start_time := 0, end_time := 10,
    parameters := { raw := "0.9" } }

/-! ### C1 — AddClip idempotence -/

/-- C1 counterexample: `exProject` already contains a clip with id `"c1"`,
yet `AddClip` of that very clip changes `clips`, leaving two clips that carry
the id instead of one. -/
theorem addClip_idempotence_cex :
    applyOperation exProject (.AddClip exClip) =
      some { exProject with clips := [exClip, exClip] } ∧
    [exClip, exClip] ≠ exProject.clips ∧
    ([exClip, exClip].countP (fun c => c.id == exClip.id)) = 2 :=
  ⟨by decide, by decide, by decide⟩

/-- C1 (amended): `apply_operation` on `AddClip(clip)` unconditionally appends
`clip`, whether or not a clip with the same id is already present; delivering
the same `AddClip(clip)` twice therefore appends two copies, adding two to the
number of clips carrying `clip.id`. -/
theorem addClip_appends_unconditionally (p : VideoProject) (clip : VideoClip) :
    ∃ p1 p2,
      applyOperation p (.AddClip clip) = some p1 ∧
      applyOperation p1 (.AddClip clip) = some p2 ∧
      p2.clips = p.clips ++ [clip, clip] ∧
      p2.clips.countP (fun c => c.id == clip.id) =
        p.clips.countP (fun c => c.id == clip.id) + 2 := by
  refine ⟨_, _, rfl, rfl, ?_, ?_⟩
  · simp [applyOperation]
  · simp [applyOperation, List.countP_append, List.countP_cons]

/-! ### C2 — AddEffect and per-type effect uniqueness -/

/-- C2 counterexample: starting from a clip with per-type-unique (empty)
effects, two `AddEffect` deliveries of distinct `Brightness` effects leave the
clip holding both: the earlier same-type effect is not removed first. -/
theorem addEffect_dedup_cex :
    (applyOperation exProject (.AddEffect "c1" exEffect1)).bind
        (fun q => applyOperation q (.AddEffect "c1" exEffect2)) =
      some { exProject with
              clips := [{ exClip with effects := [exEffect1, exEffect2] }] } ∧
    ([exEffect1, exEffect2].countP
        (fun e => e.effect_type == EffectType.Brightness)) = 2 :=
  ⟨by decide, by decide⟩

/-- C2 (amended): `apply_operation` on `AddEffect{clip_id, effect}` appends
`effect` to the first clip whose id matches `clip_id` and removes nothing;
all other clips are untouched, so repeated `AddEffect`s of one `effect_type`
accumulate duplicates on the clip. -/
theorem addEffect_appends_without_dedup (p : VideoProject) (cid : String)
    (e : Effect) (pre : List VideoClip) (c : VideoClip) (rest : List VideoClip)
    (hsplit : p.clips = pre ++ c :: rest)
    (hpre : ∀ x ∈ pre, (x.id == cid) = false)
    (hc : (c.id == cid) = true) :
    applyOperation p (.AddEffect cid e) =
      some { p with clips :=
              (pre ++ { c with effects := c.effects ++ [e] } :: rest) } := by
  simp only [applyOperation, hsplit, updateFirst_append hpre hc]

/-- C2 witness: the amended theorem applied to `exProject`. -/
theorem addEffect_appends_without_dedup_witness :
    applyOperation exProject (.AddEffect "c1" exEffect1) =
      some { exProject with clips := [{ exClip with effects := [exEffect1] }] } :=
  addEffect_appends_without_dedup exProject "c1" exEffect1 [] exClip [] rfl
    (by intro x hx; cases hx) (by decide)

/-! ### C10 — send_pong partiality -/

/-- C10: `send_pong` computes the elapsed time only under the precondition
`received_time ≤ now`: it returns `Pong(now - received_time)` in that case and
aborts on the unsigned subtraction underflow (modelled as `none`) whenever the
client-supplied `received_time` exceeds the wall clock. -/
theorem send_pong_spec (now rt : Nat) :
    (rt ≤ now → sendPong now rt = some (.Pong (now - rt))) ∧
    (now < rt → sendPong now rt = none) := by
  constructor
  · intro h
    simp [sendPong, u64Sub, h]
  · intro h
    simp [sendPong, u64Sub, Nat.not_le.mpr h]

/-- C10 witness: both branches of the specification at concrete clocks. -/
theorem send_pong_spec_witness :
    sendPong 5 3 = some (.Pong 2) ∧ sendPong 3 5 = none :=
  ⟨(send_pong_spec 5 3).1 (by decide), (send_pong_spec 3 5).2 (by decide)⟩

/-! ### C3 — totality of apply_operation -/

/-- C3 counterexample: from `exProject`, a `TrimClip` produces a state with
`end_time < start_time` on which the `MoveClip` branch's `Duration`
subtraction aborts: `apply_operation` is not total. -/
theorem applyOperation_not_total_cex :
    (applyOperation exProject (.TrimClip "c1" 5 2)).bind
        (fun q => applyOperation q (.MoveClip "c1" 0 0)) = none := by
  decide

/-- C3 (amended): `apply_operation` aborts exactly on a `MoveClip` whose
target — the first clip carrying the given id — has `end_time < start_time`
(the `Duration` subtraction underflows) or has
`new_start_time + (end_time - start_time)` beyond the largest `Duration`
(the addition overflows); every other operation, on every state, succeeds. -/
theorem applyOperation_eq_none_iff (p : VideoProject) (op : EditOperation) :
    applyOperation p op = none ↔
      ∃ id ns nt c, op = .MoveClip id ns nt ∧
        p.clips.find? (fun x => x.id == id) = some c ∧
        (c.end_time < c.start_time ∨ DMAX < ns + (c.end_time - c.start_time)) := by
  cases op with
  | MoveClip id ns nt =>
      simp only [applyOperation, Option.map_eq_none', updateFirstM_eq_none_iff,
        moveClipUpdate_eq_none_iff, EditOperation.MoveClip.injEq]
      constructor
      · rintro ⟨x, hfind, hcond⟩
        exact ⟨id, ns, nt, x, ⟨rfl, rfl, rfl⟩, hfind, hcond⟩
      · rintro ⟨id', ns', nt', x, ⟨rfl, rfl, rfl⟩, hfind, hcond⟩
        exact ⟨x, hfind, hcond⟩
  | AddClip clip => simp [applyOperation]
  | RemoveClip id => simp [applyOperation]
  | TrimClip id ns ne => simp [applyOperation]
  | AddEffect cid e => simp [applyOperation]
  | RemoveEffect cid eid => simp [applyOperation]
  | AddTransition cid t => simp [applyOperation]
  | RemoveTransition cid => simp [applyOperation]
  | SetProjectDuration d => simp [applyOperation]
  | UpdateCollaboratorCursor colid pos => simp [applyOperation]

/-- C3 witness: the characterization instantiated at a concrete aborting
input — `MoveClip` on a clip whose interval cannot be shifted by one
nanosecond without leaving the `Duration` range. -/
theorem applyOperation_eq_none_iff_witness :
    applyOperation { clips := [{ exClip with end_time := DMAX }],
                     duration := 0, collaborators := [] }
      (.MoveClip "c1" 1 0) = none :=
  (applyOperation_eq_none_iff _ _).mpr
    ⟨"c1", 1, 0, { exClip with end_time := DMAX }, rfl, by decide, by decide⟩

/-! ### C7 — MoveClip preserves duration -/

/-- C7 counterexample: `overflowClip` is present and satisfies
`start_time ≤ end_time`, yet `MoveClip` to `new_start_time = 1` aborts on
`Duration` overflow, so no post-state exists at all. -/
def overflowClip : VideoClip :=
  { id := "c1", source_file := "intro.mp4", start_time := 0, end_time := DMAX,
    track := 0, effects := [], transition := none }

def overflowProject : VideoProject :=
  { clips := [overflowClip], duration := 0, collaborators := [] }

/-- C7 counterexample: a present clip with a valid interval on which `MoveClip`
produces no post-state (it aborts on `Duration` overflow). -/
theorem moveClip_overflow_cex :
    overflowClip.start_time ≤ overflowClip.end_time ∧
    overflowClip ∈ overflowProject.clips ∧
    applyOperation overflowProject (.MoveClip "c1" 1 0) = none :=
  ⟨by decide, by decide, by decide⟩

/-- C7 (amended): when the first clip with the given id has
`start_time ≤ end_time` and `new_start_time + (end_time - start_time)` stays
within the `Duration` range, `MoveClip` succeeds and rewrites exactly that
clip — `start_time = new_start_time`, `end_time = new_start_time + old
duration`, `track = new_track`, duration preserved, every other clip and field
unchanged; with no matching clip, `MoveClip` returns the project unchanged. -/
theorem moveClip_spec (p : VideoProject) (i : String) (ns nt : Nat) :
    ((∀ x ∈ p.clips, (x.id == i) = false) →
        applyOperation p (.MoveClip i ns nt) = some p) ∧
    (∀ pre c rest, p.clips = pre ++ c :: rest →
        (∀ x ∈ pre, (x.id == i) = false) →
        (c.id == i) = true →
        c.start_time ≤ c.end_time →
        ns + (c.end_time - c.start_time) ≤ DMAX →
        applyOperation p (.MoveClip i ns nt) =
          some { p with clips :=
                  (pre ++ { c with start_time := ns,
                                   end_time := ns + (c.end_time - c.start_time),
                                   track := nt } :: rest) } ∧
          (ns + (c.end_time - c.start_time)) - ns = c.end_time - c.start_time) := by
  constructor
  · intro h
    simp only [applyOperation, updateFirstM_of_forall_false h, Option.map_some']
  · intro pre c rest hsplit hpre hc h1 h2
    refine ⟨?_, by omega⟩
    simp only [applyOperation, hsplit, updateFirstM_append hpre hc,
      moveClipUpdate_eq_some h1 h2, Option.map_some']

/-- C7 witness: moving the sample clip `[0,10]` on track 0 to start 5, track 1
yields `[5,15]` on track 1. -/
theorem moveClip_spec_witness :
    applyOperation exProject (.MoveClip "c1" 5 1) =
      some { exProject with clips :=
              [{ exClip with start_time := 5, end_time := 15, track := 1 }] } :=
  ((moveClip_spec exProject "c1" 5 1).2 [] exClip [] rfl
    (by intro x hx; cases hx) (by decide) (by decide) (by decide)).1

/-! ### C4 — the TrimClip ∕ TrimClip transform -/

def exTrimServer : OTOperation :=
  { client_id := "a", client_version := 0, server_version := 7,
    operation := .TrimClip "c1" 0 1 }

def exTrimClient : OTOperation :=
  { client_id := "b", client_version := 3, server_version := 2,
    operation := .TrimClip "c1" 5 6 }

/-- C4: transforming two `TrimClip`s on the same clip id yields a `TrimClip`
on that id with `new_start_time = max` of the starts and `new_end_time = min`
of the ends, carrying the client's `client_id`/`client_version` and the server
op's `server_version`; on different ids the client operation is returned
unchanged. -/
theorem transform_trimPair_spec (s c : OTOperation) (i1 : String) (a1 b1 : Nat)
    (i2 : String) (a2 b2 : Nat)
    (hs : s.operation = .TrimClip i1 a1 b1)
    (hc : c.operation = .TrimClip i2 a2 b2) :
    (i1 = i2 →
        transformOperation s c =
          .ok { client_id := c.client_id, client_version := c.client_version,
                server_version := s.server_version,
                operation := .TrimClip i2 (max a1 a2) (min b1 b2) }) ∧
    (i1 ≠ i2 → transformOperation s c = .ok c) := by
  obtain ⟨scid, scv, ssv, sop⟩ := s
  obtain ⟨ccid, ccv, csv, cop⟩ := c
  dsimp only at hs hc
  subst hs
  subst hc
  constructor
  · rintro rfl
    simp [transformOperation, asTrimClip]
  · intro hne
    simp [transformOperation, beq_iff_eq, hne]

/-- C4 witness: concurrent trims of `"c1"` to `[0,1]` (server) and `[5,6]`
(client) transform to `TrimClip "c1" 5 1` with the client's envelope ids and
the server op's `server_version`. -/
theorem transform_trimPair_spec_witness :
    transformOperation exTrimServer exTrimClient =
      .ok { client_id := "b", client_version := 3, server_version := 7,
            operation := .TrimClip "c1" 5 1 } :=
  (transform_trimPair_spec exTrimServer exTrimClient "c1" 0 1 "c1" 5 6
    rfl rfl).1 rfl

/-! ### C8 — validity of the transformed trim interval -/

/-- C8 counterexample: server trim `[0,1]` and client trim `[5,6]` of the same
clip are each valid, yet the transformed operation is `TrimClip "c1" 5 1` with
`5 > 1`: the engine does not clamp disjoint concurrent trims to a valid
interval. -/
theorem transform_trim_invalid_cex :
    (0:Nat) ≤ 1 ∧ (5:Nat) ≤ 6 ∧
    transformOperation exTrimServer exTrimClient =
      .ok { client_id := "b", client_version := 3, server_version := 7,
            operation := .TrimClip "c1" 5 1 } ∧
    ¬ (5:Nat) ≤ 1 :=
  ⟨by decide, by decide, by decide, by decide⟩

/-- C8 (amended): for same-id `TrimClip` pairs with individually valid
intervals `[a1,b1]` and `[a2,b2]`, the transformed interval
`[max(a1,a2), min(b1,b2)]` satisfies `new_start_time ≤ new_end_time` exactly
when the two input intervals intersect (`a2 ≤ b1 ∧ a1 ≤ b2`); for disjoint
inputs the result is an invalid interval. -/
theorem transform_trim_validity (s c : OTOperation) (i : String)
    (a1 b1 a2 b2 : Nat)
    (hs : s.operation = .TrimClip i a1 b1)
    (hc : c.operation = .TrimClip i a2 b2)
    (h1 : a1 ≤ b1) (h2 : a2 ≤ b2) :
    ∃ r, transformOperation s c = .ok r ∧
      r.operation = .TrimClip i (max a1 a2) (min b1 b2) ∧
      (max a1 a2 ≤ min b1 b2 ↔ a2 ≤ b1 ∧ a1 ≤ b2) := by
  obtain ⟨scid, scv, ssv, sop⟩ := s
  obtain ⟨ccid, ccv, csv, cop⟩ := c
  dsimp only at hs hc
  subst hs
  subst hc
  refine ⟨{ client_id := ccid, client_version := ccv, server_version := ssv,
            operation := .TrimClip i (max a1 a2) (min b1 b2) }, ?_, rfl, ?_⟩
  · simp [transformOperation, asTrimClip]
  · constructor
    · intro h
      constructor <;> omega
    · intro h
      obtain ⟨ha, hb⟩ := h
      omega

/-- C8 witness: the amended theorem at the disjoint sample trims — the result
interval `[5,1]` is invalid because `[0,1]` and `[5,6]` do not intersect. -/
theorem transform_trim_validity_witness :
    ∃ r, transformOperation exTrimServer exTrimClient = .ok r ∧
      r.operation = .TrimClip "c1" 5 1 ∧
      ((5:Nat) ≤ 1 ↔ (5:Nat) ≤ 1 ∧ (0:Nat) ≤ 6) :=
  transform_trim_validity exTrimServer exTrimClient "c1" 0 1 5 6 rfl rfl
    (by decide) (by decide)

theorem except_bind_eq_ok {ε α β : Type} {m : Except ε α}
    {f : α → Except ε β} {r : β} :
    (m >>= f) = .ok r ↔ ∃ x, m = .ok x ∧ f x = .ok r := by
  cases m with
  | error a =>
      exact ⟨fun h => Except.noConfusion h,
        fun ⟨x, hx, _⟩ => Except.noConfusion hx⟩
  | ok x =>
      constructor
      · intro h
        exact ⟨x, rfl, h⟩
      · rintro ⟨y, hy, hf⟩
        injection hy with hy2
        subst hy2
        exact hf

/-! ### C6 — the envelope on the transformed operation -/

/-- The variant pairs for which `transform_operation` returns the server
operation wholesale: same-id `MoveClip` pairs and `SetProjectDuration`
pairs. -/
def serverWinsPair (s c : OTOperation) : Bool :=
  match s.operation, c.operation with
  | .MoveClip sid _ _, .MoveClip cid _ _ => sid == cid
  | .SetProjectDuration _, .SetProjectDuration _ => true
  | _, _ => false

def exMoveServer : OTOperation :=
  { client_id := "a", client_version := 1, server_version := 9,
    operation := .MoveClip "c1" 4 2 }

def exMoveClient : OTOperation :=
  { client_id := "b", client_version := 5, server_version := 3,
    operation := .MoveClip "c1" 8 1 }

/-- C6 counterexample: on a same-id `MoveClip` pair the transform returns the
entire server operation, so the envelope carries the server's `client_id` and
`client_version`, not the origin client's. -/
theorem transform_envelope_cex :
    transformOperation exMoveServer exMoveClient = .ok exMoveServer ∧
    exMoveServer.client_id ≠ exMoveClient.client_id ∧
    exMoveServer.client_version ≠ exMoveClient.client_version :=
  ⟨by decide, by decide, by decide⟩

/-- C6 (amended): `transform_operation` takes no current-server-version
argument; when it returns, the envelope carries the origin client's
`client_id` and `client_version` in every case except the same-id `MoveClip`
and the `SetProjectDuration` pairs, which return the whole server operation —
envelope included — and the result's `server_version` is one of the server
op's `server_version`, that value plus one, or the client op's own
`server_version`. -/
theorem transform_envelope_spec (s c : OTOperation) :
    (serverWinsPair s c = true → transformOperation s c = .ok s) ∧
    (serverWinsPair s c = false →
      ∀ r, transformOperation s c = .ok r →
        r.client_id = c.client_id ∧ r.client_version = c.client_version ∧
        (r.server_version = s.server_version ∨
         r.server_version = s.server_version + 1 ∨
         r.server_version = c.server_version)) := by
  obtain ⟨scid, scv, ssv, sop⟩ := s
  obtain ⟨ccid, ccv, csv, cop⟩ := c
  cases sop <;> cases cop <;>
    (try exact ⟨fun h => Bool.noConfusion h, fun _ r hr => by
      injection hr with h2
      subst h2
      exact ⟨rfl, rfl, Or.inr (Or.inr rfl)⟩⟩)
  case AddClip.AddClip sclip cclip =>
    refine ⟨fun h => Bool.noConfusion h, fun _ r hr => ?_⟩
    simp only [transformOperation] at hr
    split at hr
    · rw [except_bind_eq_ok] at hr
      obtain ⟨t1, h1, hr⟩ := hr
      rw [except_bind_eq_ok] at hr
      obtain ⟨t2, h2, hr⟩ := hr
      injection hr with h3
      subst h3
      exact ⟨rfl, rfl, Or.inr (Or.inl rfl)⟩
    · injection hr with h3
      subst h3
      exact ⟨rfl, rfl, Or.inr (Or.inr rfl)⟩
  case RemoveClip.RemoveClip sid cid =>
    refine ⟨fun h => Bool.noConfusion h, fun _ r hr => ?_⟩
    simp only [transformOperation] at hr
    split at hr
    · injection hr with h3
      subst h3
      exact ⟨rfl, rfl, Or.inl rfl⟩
    · injection hr with h3
      subst h3
      exact ⟨rfl, rfl, Or.inr (Or.inr rfl)⟩
  case MoveClip.MoveClip sid sns snt cid cns cnt =>
    refine ⟨fun h => ?_, fun h r hr => ?_⟩
    · simp only [serverWinsPair] at h
      simp only [transformOperation]
      split
      · rfl
      · rename_i hcond
        exact absurd h hcond
    · simp only [serverWinsPair] at h
      simp only [transformOperation] at hr
      split at hr
      · rename_i hcond
        rw [h] at hcond
        exact Bool.noConfusion hcond
      · injection hr with h3
        subst h3
        exact ⟨rfl, rfl, Or.inr (Or.inr rfl)⟩
  case TrimClip.TrimClip sid sns sne cid cns cne =>
    refine ⟨fun h => Bool.noConfusion h, fun _ r hr => ?_⟩
    simp only [transformOperation] at hr
    split at hr
    · simp only [asTrimClip] at hr
      injection hr with h3
      subst h3
      exact ⟨rfl, rfl, Or.inl rfl⟩
    · injection hr with h3
      subst h3
      exact ⟨rfl, rfl, Or.inr (Or.inr rfl)⟩
  case SetProjectDuration.SetProjectDuration sd cd =>
    exact ⟨fun _ => rfl, fun h => Bool.noConfusion h⟩

/-- C6 witness: the amended theorem at the same-id `MoveClip` pair — the
server operation is returned wholesale. -/
theorem transform_envelope_spec_witness :
    serverWinsPair exMoveServer exMoveClient = true ∧
    transformOperation exMoveServer exMoveClient = .ok exMoveServer :=
  ⟨by decide, (transform_envelope_spec exMoveServer exMoveClient).1 (by decide)⟩

/-! ### C9 — the as_trim_clip assertion is unreachable -/

theorem durAddE_ne_trimFault (a b : Nat) :
    durAddE a b ≠ .error .trimExtractorMisuse := by
  unfold durAddE
  split
  · exact fun h => Except.noConfusion h
  · intro h
    injection h with h2
    exact TransformFault.noConfusion h2

theorem durSubE_ne_trimFault (a b : Nat) :
    durSubE a b ≠ .error .trimExtractorMisuse := by
  unfold durSubE
  split
  · exact fun h => Except.noConfusion h
  · intro h
    injection h with h2
    exact TransformFault.noConfusion h2

theorem except_bind_ne_error {ε α β : Type} {e : ε} {m : Except ε α}
    {f : α → Except ε β} (hm : m ≠ .error e) (hf : ∀ x, f x ≠ .error e) :
    m.bind f ≠ .error e := by
  intro h
  cases m with
  | error a =>
      injection h with ha
      exact hm (by rw [ha])
  | ok x => exact hf x h

/-- C9: the `"Called as_trim_clip on non-TrimClip operation"` assertion is
unreachable from `transform_operation`: no pair of input operations makes the
transform return the extractor-misuse fault, because `as_trim_clip` is invoked
only on operations already matched as `TrimClip`. -/
theorem transform_no_trim_extractor_fault (s c : OTOperation) :
    transformOperation s c ≠ .error .trimExtractorMisuse := by
  obtain ⟨scid, scv, ssv, sop⟩ := s
  obtain ⟨ccid, ccv, csv, cop⟩ := c
  cases sop <;> cases cop <;>
    (try exact fun h => Except.noConfusion h)
  case AddClip.AddClip sclip cclip =>
    simp only [transformOperation]
    split
    · exact except_bind_ne_error (durAddE_ne_trimFault _ _)
        (fun t1 => except_bind_ne_error (durSubE_ne_trimFault _ _)
          (fun t2 h => Except.noConfusion h))
    · exact fun h => Except.noConfusion h
  case RemoveClip.RemoveClip sid cid =>
    simp only [transformOperation]
    split <;> exact fun h => Except.noConfusion h
  case MoveClip.MoveClip sid sns snt cid cns cnt =>
    simp only [transformOperation]
    split <;> exact fun h => Except.noConfusion h
  case TrimClip.TrimClip sid sns sne cid cns cne =>
    simp only [transformOperation]
    split
    · simp only [asTrimClip]
      exact fun h => Except.noConfusion h
    · exact fun h => Except.noConfusion h

end Weframe
